import Mathlib

/-
  Verification development for New_Alarm_Mutex.c.

  The program keeps a singly linked list of alarm records (`alarm_list`),
  inserted by the main thread sorted by `alarm_id`, consumed by a single
  alarm thread, and printed by a display thread.  We model the heap of
  alarm records explicitly: a cell address is an index into `heap`, a
  freed cell is `none`.  Pointer fields (`link`, `alarm_list`,
  `globalNext`) are `Option Nat`.  The global pointer `globalLast`
  (lines 51, 149, 340) is assigned but never dereferenced for a write,
  so it is omitted from the state.

  The `changed` field of `alarm_t` is never initialized by the
  Start_Alarm branch of `main` (lines 263-271); we model it as
  `Option Int` with `none` standing for the indeterminate initial value;
  the alarm thread writes `1` into it at line 181.

  Walks over the linked chain are written with explicit fuel; a walk
  that dereferences a freed cell (undefined behaviour in the C program)
  or runs out of fuel returns `none`.
-/

/-- One `alarm_t` record (New_Alarm_Mutex.c lines 22-32).  `req_type`
holds the request string copied at lines 270/330, `message` the user
message.  `time` is `time_t` seconds, `seconds` the user duration. -/
structure AlarmRec where
  link : Option Nat
  time : Int
  seconds : Int
  changed : Option Int
  alarm_id : Int
  message : String
  req_type : String
deriving DecidableEq, Repr

/-- One `display_t` record (lines 34-41).  Its own `link` field is never
used to chain more than one node, so the display list is a plain list. -/
structure DisplayRec where
  thread_id : Int
  creation_time : Int
deriving DecidableEq, Repr

/-- The shared mutable state of the program: the heap of alarm cells,
the list head `alarm_list` (line 47), the display list head (line 49),
and the global cursor `globalNext` (line 52).  C globals are
zero-initialized, so both pointers start out null. -/
structure SysState where
  heap : List (Option AlarmRec)
  alarm_list : Option Nat
  display_list : List DisplayRec
  globalNext : Option Nat
deriving DecidableEq, Repr

def initState : SysState := ⟨[], none, [], none⟩

/-- Read the heap cell at address `a`; `none` when out of range or freed. -/
def cellAt : List (Option AlarmRec) → Nat → Option AlarmRec
  | [], _ => none
  | c :: _, 0 => c
  | _ :: t, n + 1 => cellAt t n

/-- Overwrite the heap cell at address `a` (no-op out of range). -/
def cellSet : List (Option AlarmRec) → Nat → Option AlarmRec → List (Option AlarmRec)
  | [], _, _ => []
  | _ :: t, 0, v => v :: t
  | c :: t, n + 1, v => c :: cellSet t n v

def heapGet (s : SysState) (a : Nat) : Option AlarmRec :=
  cellAt s.heap a

/-- `p->link = l` for the cell at address `a`. -/
def setLink (h : List (Option AlarmRec)) (a : Nat) (l : Option Nat) :
    List (Option AlarmRec) :=
  match cellAt h a with
  | none => h
  | some r => cellSet h a (some { r with link := l })

/-- All fields of a record except `link` (used to state that link
surgery during insertion touches no record contents). -/
def recData (r : AlarmRec) : Int × Int × Option Int × Int × String × String :=
  (r.time, r.seconds, r.changed, r.alarm_id, r.message, r.req_type)

/-- The fields `Change_Alarm` never writes: `link`, `alarm_id`, `changed`. -/
def frameData (r : AlarmRec) : Option Nat × Int × Option Int :=
  (r.link, r.alarm_id, r.changed)

/- Console messages, modelled after the printf format strings.  The
status printed at line 259 is 0 on a successful lock, which the
sequential model assumes. -/

def statusMsg : String := "Status of mutex lock: 0"

def insertedMsg (tid now tsec : Int) (msg : String) : String :=
  "Alarm(" ++ toString tid ++ ") Inserted by Main Thread Into Alarm List at " ++
    toString now ++ ": " ++ toString tsec ++ " " ++ msg

def idFoundMsg : String := "ID found"

def listIdsMsg (i : Int) : String := "List of ids: " ++ toString i

def changedMsg (tid now tsec : Int) (msg : String) : String :=
  "Alarm(" ++ toString tid ++ ") Changed at " ++ toString now ++ ": " ++
    toString tsec ++ " " ++ msg

def notFoundMsg (tid : Int) : String :=
  "Bad command, Alarm ID (" ++ toString tid ++ ") not found"

def newDisplayMsg (now : Int) : String :=
  "New Display Thread (1) Created at " ++ toString now

def expiredMsg (tid now : Int) : String :=
  "Alarm(" ++ toString tid ++ "): Alarm Expired at " ++ toString now ++
    ": Alarm Removed From Alarm List"

/-- The insertion walk of the Start_Alarm branch (lines 276-297):
`last = &alarm_list; next = *last;` then walk until a node with
`alarm_id >= ` the new id is found (insert before it: `alarm->link =
next; *last = alarm`) or the end is reached (`*last = alarm;
alarm->link = NULL`).  Returns the updated heap and the new value of
the pointer slot the walk started from.  `none` means the walk
dereferenced a freed cell or exceeded its fuel. -/
def insertWalk (h : List (Option AlarmRec)) (newAddr : Nat) (newId : Int) :
    Option Nat → Nat → Option (List (Option AlarmRec) × Option Nat)
  | none, _ => some (setLink h newAddr none, some newAddr)
  | some _, 0 => none
  | some a, fuel + 1 =>
    match cellAt h a with
    | none => none
    | some r =>
      if r.alarm_id ≥ newId then
        some (setLink h newAddr (some a), some newAddr)
      else
        match insertWalk h newAddr newId r.link fuel with
        | none => none
        | some (h2, p) => some (setLink h2 a p, some a)

/-- The Start_Alarm branch of `main` (lines 256-310): allocate a record,
fill it (`time = time(NULL) + seconds`, line 268; `changed` left
uninitialized), insert it into the id-sorted list, print the status and
insertion messages.  Result: new state, stdout lines, stderr lines. -/
def start_alarm (s : SysState) (now tid tsec : Int) (tmsg : String) :
    Option (SysState × List String × List String) :=
  let newAddr := s.heap.length
  let rec0 : AlarmRec :=
    { link := none, time := now + tsec, seconds := tsec, changed := none,
      alarm_id := tid, message := tmsg, req_type := "Start_Alarm" }
  let h := s.heap ++ [some rec0]
  match insertWalk h newAddr tid s.alarm_list (h.length + 1) with
  | none => none
  | some (h2, head2) =>
    some ({ s with heap := h2, alarm_list := head2 },
          [statusMsg, insertedMsg tid now tsec tmsg], [])

/-- The search loop of the Change_Alarm branch (lines 320-342): walk the
chain starting at the global cursor `globalNext`; on an id match set
`seconds`, `time = time(NULL) + seconds`, `req_type`, `message` and
break (leaving the cursor on the found node); on a mismatch print the
debug line 338 and advance the cursor destructively.  Returns the
updated heap, the final cursor, the `exist` flag and the stdout lines. -/
def changeWalk (now tid tsec : Int) (tmsg : String) (h : List (Option AlarmRec)) :
    Option Nat → Nat →
    Option (List (Option AlarmRec) × Option Nat × Bool × List String)
  | none, _ => some (h, none, false, [])
  | some _, 0 => none
  | some a, fuel + 1 =>
    match cellAt h a with
    | none => none
    | some r =>
      if tid = r.alarm_id then
        let r2 : AlarmRec :=
          { r with seconds := tsec, time := now + tsec,
                   req_type := "Change_Alarm", message := tmsg }
        some (cellSet h a (some r2),
              some a, true, [idFoundMsg, changedMsg tid now tsec tmsg])
      else
        match changeWalk now tid tsec tmsg h r.link fuel with
        | none => none
        | some (h2, gn, ex, outs) =>
          some (h2, gn, ex, listIdsMsg r.alarm_id :: outs)

/-- The Change_Alarm branch of `main` (lines 312-360): search from the
global cursor; when `exist` stays 0 print the not-found line 348 to
stderr. -/
def change_alarm (s : SysState) (now tid tsec : Int) (tmsg : String) :
    Option (SysState × List String × List String) :=
  match changeWalk now tid tsec tmsg s.heap s.globalNext (s.heap.length + 1) with
  | none => none
  | some (h2, gn, ex, outs) =>
    some ({ s with heap := h2, globalNext := gn }, outs,
          if ex then [] else [notFoundMsg tid])

/-- The locked portion of one alarm-thread iteration (lines 131-193):
if the list is empty, `sleep_time = 1`; otherwise set the global cursor
to the head (lines 149-150), unconditionally unlink the head (line 151),
compute `sleep_time` from `alarm->time` against `now` (lines 152-156),
and then either create the display thread when the display list is
empty (lines 163-177; the node's `thread_id` field is the literal 1,
line 167 — the display list is never emptied, so this branch runs at
most once per process) or mark the dequeued record changed and signal
the shared condition (lines 179-185).  Returns the new state, the
dequeued address, `sleep_time`, and stdout lines. -/
def schedDequeue (s : SysState) (now : Int) :
    Option (SysState × Option Nat × Int × List String) :=
  match s.alarm_list with
  | none => some (s, none, 1, [])
  | some a =>
    match cellAt s.heap a with
    | none => none
    | some r =>
      let sleepT : Int := if r.time ≤ now then 0 else r.time - now
      match s.display_list with
      | [] =>
        some ({ s with alarm_list := r.link, globalNext := some a,
                       display_list := [⟨1, now⟩] },
              some a, sleepT, [newDisplayMsg now])
      | _ :: _ =>
        some ({ s with alarm_list := r.link, globalNext := some a,
                       heap := cellSet s.heap a (some { r with changed := some 1 }) },
              some a, sleepT, [])

/-- `free(alarm)` at line 222 (also line 95): release the cell. -/
def freeAlarm (s : SysState) (a : Nat) : SysState :=
  { s with heap := cellSet s.heap a none }

/-- The display thread's reads of `alarm->time` at lines 89 and 97,
through the snapshot pointer it took at line 64 before locking.
`none` means the read touches freed (or null) storage. -/
def displayReadTime (s : SysState) (snap : Option Nat) : Option Int :=
  snap.bind (fun a => (heapGet s a).map (fun r => r.time))

/-- The ids along the live chain from `alarm_list`, in link order. -/
def chainIdsFrom (h : List (Option AlarmRec)) : Option Nat → Nat → List Int
  | none, _ => []
  | some _, 0 => []
  | some a, fuel + 1 =>
    match cellAt h a with
    | none => []
    | some r => r.alarm_id :: chainIdsFrom h r.link fuel

def chainIds (s : SysState) : List Int :=
  chainIdsFrom s.heap s.alarm_list (s.heap.length + 1)

/- ----- The command gateway: the main loop of `main` (lines 244-367). ----- -/

def digitsToNat (ds : List Char) : Nat :=
  ds.foldl (fun n c => n * 10 + (c.toNat - 48)) 0

/-- A `%d` conversion: skip leading whitespace, optional minus sign,
then at least one digit. -/
def scanInt (cs : List Char) : Option (Int × List Char) :=
  let cs1 := cs.dropWhile Char.isWhitespace
  match cs1 with
  | '-' :: rest =>
    let ds := rest.takeWhile Char.isDigit
    if ds.isEmpty then none
    else some (-(Int.ofNat (digitsToNat ds)), rest.drop ds.length)
  | _ =>
    let ds := cs1.takeWhile Char.isDigit
    if ds.isEmpty then none
    else some (Int.ofNat (digitsToNat ds), cs1.drop ds.length)

/-- The `sscanf (line, "%20[^(](%d): %d %128[^\n]", ...)` call at
line 253: a request word of at most 20 characters up to the opening
parenthesis, the id, a literal close-parenthesis and colon, the
seconds, and a message of at most 128 characters up to the end of the
line.  `none` models fewer than 4 conversions (the `< 4` test). -/
def parseCmd (line : String) : Option (String × Int × Int × String) :=
  let cs := line.toList
  let req := (cs.takeWhile (fun c => c ≠ '(')).take 20
  if req.isEmpty then none
  else
    match cs.drop req.length with
    | '(' :: rest1 =>
      match scanInt rest1 with
      | none => none
      | some (tid, rest2) =>
        match rest2 with
        | ')' :: ':' :: rest3 =>
          match scanInt rest3 with
          | none => none
          | some (tsec, rest4) =>
            let rest5 := rest4.dropWhile Char.isWhitespace
            let msg := (rest5.takeWhile (fun c => c ≠ '\n')).take 128
            if msg.isEmpty then none
            else some (String.mk req, tid, tsec, String.mk msg)
        | _ => none
    | _ => none

/-- One trip through the body of the main loop (lines 244-367) for one
input line (as returned by `fgets`, trailing newline included):
a line of length at most 1 is skipped with no output (line 247); a
failed parse prints `Bad command` to stderr (line 254); otherwise the
Start_Alarm / Change_Alarm / invalid-request branches run.  (The
invalid-request branch also executes `free(alarm)` on a stale pointer,
line 364, which the model does not track.)  `none` propagates undefined
behaviour from the registry operations. -/
def processLine (s : SysState) (now : Int) (line : String) :
    Option (SysState × List String × List String) :=
  if line.length ≤ 1 then some (s, [], [])
  else
    match parseCmd line with
    | none => some (s, [], ["Bad command"])
    | some (treq, tid, tsec, tmsg) =>
      if treq = "Start_Alarm" then start_alarm s now tid tsec tmsg
      else if treq = "Change_Alarm" then change_alarm s now tid tsec tmsg
      else some (s, [], ["Bad command, invalid Alarm Request"])

/-- The main loop consuming a whole input stream: on end of file,
`fgets` returns NULL and the process calls `exit (0)` (line 246).  The
returned number is the process exit status.  (Wall-clock progress is
irrelevant to the claims about this loop, so `now` is held fixed.) -/
def mainLoop (s : SysState) (now : Int) : List String → Option (SysState × Nat)
  | [] => some (s, 0)
  | l :: ls =>
    match processLine s now l with
    | none => none
    | some (s2, _, _) => mainLoop s2 now ls

/- ----- Lock-discipline trace model. -----
The claims about the mutex are about the order of lock, unlock,
sleep and yield calls, which is decided purely by the branch structure
of the two thread bodies, so we record that order as an event list. -/

inductive LkEv where
  | lockEv
  | unlockEv
  | condRelease
  | condReacquire
  | sleepEv
  | yieldEv
  | signalEv
  | printEv
deriving DecidableEq, Repr

/-- The lock/sleep events of one iteration of `alarm_thread`
(lines 131-223), by branch: lock (line 132); when the list is non-empty
and the display list is non-empty, the inner `pthread_mutex_lock` /
`pthread_cond_signal` / `pthread_mutex_unlock` of lines 182-184; when
the display list is empty, the thread-creation printf (line 176);
unlock (line 202); then `sleep` (line 206) or `sched_yield` (line 208);
finally the expiry printf (line 215) when an alarm was dequeued. -/
def alarmIterTrace (listNonEmpty displayNonEmpty sleepPositive : Bool) : List LkEv :=
  [LkEv.lockEv] ++
  (if listNonEmpty then
     (if displayNonEmpty then [LkEv.lockEv, LkEv.signalEv, LkEv.unlockEv]
      else [LkEv.printEv])
   else []) ++
  [LkEv.unlockEv] ++
  (if sleepPositive then [LkEv.sleepEv] else [LkEv.yieldEv]) ++
  (if listNonEmpty then [LkEv.printEv] else [])

/-- The lock/sleep events of one iteration of `display_thread`
(lines 63-112): lock (line 67); `pthread_cond_wait` (line 72) releases
and reacquires the mutex; then either the termination branch (line 79),
the expiry branch (lines 91-95 — note no unlock call appears there), or
`renders` passes of the message loop (lines 97-109), each a printf
followed by `sleep (5)`, all still under the mutex. -/
def displayIterTrace (snapshotNull expired : Bool) (renders : Nat) : List LkEv :=
  [LkEv.lockEv, LkEv.condRelease, LkEv.condReacquire] ++
  (if snapshotNull then [LkEv.printEv]
   else if expired then [LkEv.printEv]
   else List.flatten (List.replicate renders [LkEv.printEv, LkEv.sleepEv]))

/-- Scanning from lock depth `d`: does some lock acquisition happen
while the mutex is already held? -/
def nestedLockFrom : Nat → List LkEv → Bool
  | _, [] => false
  | d, LkEv.lockEv :: es => decide (1 ≤ d) || nestedLockFrom (d + 1) es
  | d, LkEv.condReacquire :: es => nestedLockFrom (d + 1) es
  | d, LkEv.unlockEv :: es => nestedLockFrom (d - 1) es
  | d, LkEv.condRelease :: es => nestedLockFrom (d - 1) es
  | d, _ :: es => nestedLockFrom d es

/-- Scanning from lock depth `d`: does some sleep happen while the
mutex is held? -/
def sleepHoldingFrom : Nat → List LkEv → Bool
  | _, [] => false
  | d, LkEv.sleepEv :: es => decide (1 ≤ d) || sleepHoldingFrom d es
  | d, LkEv.lockEv :: es => sleepHoldingFrom (d + 1) es
  | d, LkEv.condReacquire :: es => sleepHoldingFrom (d + 1) es
  | d, LkEv.unlockEv :: es => sleepHoldingFrom (d - 1) es
  | d, LkEv.condRelease :: es => sleepHoldingFrom (d - 1) es
  | d, _ :: es => sleepHoldingFrom d es

/- ----- Concrete states used to instantiate the general theorems. ----- -/

/-- The registry after inserting one alarm `(id, d, m)` into the empty
registry at time `now`: one cell at address 0, list head 0, no display
thread, null cursor. -/
def freshAfterStart (now id d : Int) (m : String) : SysState :=
  ⟨[some ⟨none, now + d, d, none, id, m, "Start_Alarm"⟩], some 0, [], none⟩

/-- `freshAfterStart` at the inputs used by the instance theorems. -/
def exS1 : SysState := freshAfterStart 0 5 10 "m"

/-- The full result of that first insertion, outputs included. -/
def exR1 : SysState × List String × List String :=
  (exS1, [statusMsg, insertedMsg 5 0 10 "m"], [])

/-- The result of the alarm thread's locked section on `exS1` at time 0:
the head is unlinked, the cursor set, the display thread created. -/
def exQ1 : SysState × Option Nat × Int × List String :=
  (⟨[some ⟨none, 10, 10, none, 5, "m", "Start_Alarm"⟩], none, [⟨1, 0⟩], some 0⟩,
   some 0, 10, [newDisplayMsg 0])

/-- The registry after `Start_Alarm(1): 10 a`, `Start_Alarm(2): 20 b`
(both at time 0) and one pass of the alarm thread's locked section:
record 0 is dequeued, the cursor points at it, its link still reaches
the live record 1. -/
def sC7 : SysState :=
  ⟨[some ⟨some 1, 10, 10, none, 1, "a", "Start_Alarm"⟩,
    some ⟨none, 20, 20, none, 2, "b", "Start_Alarm"⟩],
   some 1, [⟨1, 0⟩], some 0⟩

/-- The result of `Change_Alarm(2): 5 new` on `sC7` at time 0: the walk
passes the dequeued record 0, finds record 1 and rewrites its contents. -/
def rC7 : SysState × List String × List String :=
  (⟨[some ⟨some 1, 10, 10, none, 1, "a", "Start_Alarm"⟩,
     some ⟨none, 5, 5, none, 2, "new", "Change_Alarm"⟩],
    some 1, [⟨1, 0⟩], some 1⟩,
   [listIdsMsg 1, idFoundMsg, changedMsg 2 0 5 "new"], [])

/- ===== Helper lemmas ===== -/

theorem cellSet_length (h : List (Option AlarmRec)) (a : Nat) (v : Option AlarmRec) :
    (cellSet h a v).length = h.length := by
  induction h generalizing a with
  | nil => rfl
  | cons c t ih =>
    cases a with
    | zero => rfl
    | succ n => simp [cellSet, ih]

theorem cellAt_cellSet (h : List (Option AlarmRec)) (a b : Nat) (v : Option AlarmRec) :
    cellAt (cellSet h a v) b =
      if b = a ∧ a < h.length then v else cellAt h b := by
  induction h generalizing a b with
  | nil =>
    simp [cellSet, cellAt]
  | cons c t ih =>
    cases a with
    | zero =>
      cases b with
      | zero => simp [cellSet, cellAt]
      | succ n => simp [cellSet, cellAt]
    | succ m =>
      cases b with
      | zero => simp [cellSet, cellAt]
      | succ n =>
        simp only [cellSet, cellAt, ih, List.length_cons]
        by_cases hbm : n = m
        · subst hbm
          by_cases hlt : n < t.length
          · simp [hlt, Nat.succ_lt_succ hlt]
          · simp [hlt, fun hx => hlt (Nat.lt_of_succ_lt_succ hx)]
        · simp [hbm, fun hx : n + 1 = m + 1 => hbm (Nat.succ_injective hx)]

theorem setLink_length (h : List (Option AlarmRec)) (a : Nat) (l : Option Nat) :
    (setLink h a l).length = h.length := by
  unfold setLink
  cases cellAt h a with
  | none => rfl
  | some r => simp [cellSet_length]

theorem cellAt_setLink (h : List (Option AlarmRec)) (a b : Nat) (l : Option Nat) :
    (cellAt (setLink h a l) b).map recData = (cellAt h b).map recData := by
  unfold setLink
  cases hc : cellAt h a with
  | none => rfl
  | some r =>
    rw [cellAt_cellSet]
    by_cases hcond : b = a ∧ a < h.length
    · obtain ⟨hb, hlt⟩ := hcond
      subst hb
      rw [if_pos ⟨rfl, hlt⟩, hc]
      rfl
    · rw [if_neg hcond]

theorem cellAt_append_last (h : List (Option AlarmRec)) (v : Option AlarmRec) :
    cellAt (h ++ [v]) h.length = v := by
  induction h with
  | nil => rfl
  | cons c t ih => simpa [cellAt] using ih

/-- The insertion walk changes heap cells only through `setLink`: the
heap keeps its length and every cell keeps all fields except `link`. -/
theorem insertWalk_preserves (h : List (Option AlarmRec)) (na : Nat) (nid : Int) :
    ∀ fuel cur h2 p, insertWalk h na nid cur fuel = some (h2, p) →
      h2.length = h.length ∧
      ∀ b, (cellAt h2 b).map recData = (cellAt h b).map recData := by
  intro fuel
  induction fuel with
  | zero =>
    intro cur h2 p hw
    cases cur with
    | none =>
      simp only [insertWalk, Option.some.injEq, Prod.mk.injEq] at hw
      obtain ⟨hh, _⟩ := hw
      subst hh
      exact ⟨setLink_length .., fun b => cellAt_setLink ..⟩
    | some a => simp [insertWalk] at hw
  | succ fuel ih =>
    intro cur h2 p hw
    cases cur with
    | none =>
      simp only [insertWalk, Option.some.injEq, Prod.mk.injEq] at hw
      obtain ⟨hh, _⟩ := hw
      subst hh
      exact ⟨setLink_length .., fun b => cellAt_setLink ..⟩
    | some a =>
      cases hc : cellAt h a with
      | none => simp [insertWalk, hc] at hw
      | some r =>
        simp only [insertWalk, hc] at hw
        by_cases hge : r.alarm_id ≥ nid
        · rw [if_pos hge] at hw
          simp only [Option.some.injEq, Prod.mk.injEq] at hw
          obtain ⟨hh, _⟩ := hw
          subst hh
          exact ⟨setLink_length .., fun b => cellAt_setLink ..⟩
        · rw [if_neg hge] at hw
          cases hrec : insertWalk h na nid r.link fuel with
          | none => rw [hrec] at hw; exact absurd hw (by simp)
          | some q =>
            obtain ⟨h3, p3⟩ := q
            rw [hrec] at hw
            simp only [Option.some.injEq, Prod.mk.injEq] at hw
            obtain ⟨hh, _⟩ := hw
            subst hh
            obtain ⟨hlen, hfields⟩ := ih r.link h3 p3 hrec
            refine ⟨by rw [setLink_length, hlen], fun b => ?_⟩
            rw [cellAt_setLink, hfields b]

/-- The change walk keeps the heap length, and every cell keeps its
`link`, `alarm_id` and `changed` fields. -/
theorem changeWalk_preserves (now tid tsec : Int) (m : String)
    (h : List (Option AlarmRec)) :
    ∀ fuel cur h2 gn ex outs,
      changeWalk now tid tsec m h cur fuel = some (h2, gn, ex, outs) →
        h2.length = h.length ∧
        ∀ b, (cellAt h2 b).map frameData = (cellAt h b).map frameData := by
  intro fuel
  induction fuel with
  | zero =>
    intro cur h2 gn ex outs hw
    cases cur with
    | none =>
      simp only [changeWalk, Option.some.injEq, Prod.mk.injEq] at hw
      obtain ⟨hh, _⟩ := hw
      subst hh
      exact ⟨rfl, fun b => rfl⟩
    | some a => simp [changeWalk] at hw
  | succ fuel ih =>
    intro cur h2 gn ex outs hw
    cases cur with
    | none =>
      simp only [changeWalk, Option.some.injEq, Prod.mk.injEq] at hw
      obtain ⟨hh, _⟩ := hw
      subst hh
      exact ⟨rfl, fun b => rfl⟩
    | some a =>
      cases hc : cellAt h a with
      | none => simp [changeWalk, hc] at hw
      | some r =>
        simp only [changeWalk, hc] at hw
        by_cases heq : tid = r.alarm_id
        · rw [if_pos heq] at hw
          simp only [Option.some.injEq, Prod.mk.injEq] at hw
          obtain ⟨hh, _⟩ := hw
          subst hh
          refine ⟨cellSet_length .., fun b => ?_⟩
          rw [cellAt_cellSet]
          by_cases hcond : b = a ∧ a < h.length
          · obtain ⟨hb, hlt⟩ := hcond
            subst hb
            rw [if_pos ⟨rfl, hlt⟩, hc]
            rfl
          · rw [if_neg hcond]
        · rw [if_neg heq] at hw
          cases hrec : changeWalk now tid tsec m h r.link fuel with
          | none => rw [hrec] at hw; exact absurd hw (by simp)
          | some q =>
            obtain ⟨h3, gn3, ex3, outs3⟩ := q
            rw [hrec] at hw
            simp only [Option.some.injEq, Prod.mk.injEq] at hw
            obtain ⟨hh, _⟩ := hw
            subst hh
            exact ih r.link h3 gn3 ex3 outs3 hrec

/- ===== Claim theorems ===== -/

/-- C1 counterexample: the uniqueness invariant fails as stated — two
`Start_Alarm(123)` requests in a row leave two live records with
alarm id 123 on the list (the insertion loop of lines 276-297 never
checks whether the id is already present). -/
theorem start_alarm_duplicate_id :
    (start_alarm initState 0 123 20 "This message").bind (fun r1 =>
      (start_alarm r1.1 0 123 1 "This message").map (fun r2 =>
        (chainIds r2.1).count 123)) = some 2 := by decide

/-- C1 (amended): `start_alarm` always allocates exactly one new record
filled from its arguments — whether or not the id is already live — and
`change_alarm` never allocates a record; so the only violation of
per-id uniqueness is the duplicate insertion shown in the
counterexample. -/
theorem registry_allocation_discipline :
    (∀ s now tid tsec msg r, start_alarm s now tid tsec msg = some r →
       r.1.heap.length = s.heap.length + 1 ∧
       ∃ l, heapGet r.1 s.heap.length =
         some ⟨l, now + tsec, tsec, none, tid, msg, "Start_Alarm"⟩) ∧
    (∀ s now tid tsec msg r, change_alarm s now tid tsec msg = some r →
       r.1.heap.length = s.heap.length) := by
  constructor
  · intro s now tid tsec msg r hr
    simp only [start_alarm] at hr
    split at hr
    · exact absurd hr (by simp)
    · rename_i h2 head2 hiw
      simp only [Option.some.injEq] at hr
      subst hr
      obtain ⟨hlen, hfields⟩ := insertWalk_preserves _ _ _ _ _ _ _ hiw
      constructor
      · simpa using hlen
      · have hnew := hfields s.heap.length
        rw [cellAt_append_last] at hnew
        cases hcell : cellAt h2 s.heap.length with
        | none => rw [hcell] at hnew; exact absurd hnew (by simp)
        | some rn =>
          rw [hcell] at hnew
          simp only [Option.map_some', Option.some.injEq] at hnew
          refine ⟨rn.link, ?_⟩
          show cellAt h2 s.heap.length = _
          rw [hcell]
          obtain ⟨l0, t0, s0, c0, i0, m0, q0⟩ := rn
          simp only [recData, Prod.mk.injEq] at hnew
          obtain ⟨e1, e2, e3, e4, e5, e6⟩ := hnew
          subst e1; subst e2; subst e3; subst e4; subst e5; subst e6
          rfl
  · intro s now tid tsec msg r hr
    simp only [change_alarm] at hr
    split at hr
    · exact absurd hr (by simp)
    · rename_i h2 gn ex outs hw
      simp only [Option.some.injEq] at hr
      subst hr
      exact (changeWalk_preserves _ _ _ _ _ _ _ _ _ _ _ hw).1

/-- C1 witness: the first conjunct applied to the first insertion into
the empty registry. -/
theorem registry_allocation_discipline_inst :
    exR1.1.heap.length = initState.heap.length + 1 ∧
    ∃ l, heapGet exR1.1 initState.heap.length =
      some ⟨l, 0 + 10, 10, none, 5, "m", "Start_Alarm"⟩ :=
  registry_allocation_discipline.1 initState 0 5 10 "m" exR1 (by decide)

/-- C2 (code bug, use after free): the display thread takes its record
pointer as a snapshot of `alarm_list` before locking (line 64).  After
`Start_Alarm(1): 1 m` the snapshot is address 0 — non-null, so the
termination check of line 78 passes and the thread proceeds to the
dereferences of lines 89-107 — yet after one pass of the alarm thread
(which dequeues the record and frees it at line 222) that address is
freed storage: the modelled read of `alarm->time` yields `none`.  The
worker thus renders from a record the scheduler has removed and freed,
and its only "lookup" is the stale snapshot, not a registry lookup. -/
theorem worker_reads_freed_record :
    (start_alarm initState 0 1 1 "m").bind (fun r1 =>
      (schedDequeue r1.1 2).map (fun q =>
        (r1.1.alarm_list, q.2.1,
         displayReadTime (freeAlarm q.1 0) r1.1.alarm_list)))
      = some (some 0, some 0, none) := by decide

/-- C3 counterexample: a record whose due time (10) is still in the
future at `now = 0` is nevertheless removed from the list by the
scheduler — after the locked section the list is empty and the record
is gone, with `sleep_time = 10` merely scheduled. -/
theorem future_alarm_removed :
    ((start_alarm initState 0 1 10 "m").bind (fun r1 =>
      (schedDequeue r1.1 0).map (fun q =>
        ((heapGet r1.1 0).map (fun r => r.time), q.1.alarm_list, q.2.1, q.2.2.1)))
      = some (some 10, none, some 0, 10)) ∧ (0 : Int) < 10 := by decide

/-- C3 (amended): whenever the alarm list is non-empty the scheduler
unconditionally unlinks the head record — even if its due time is still
in the future — and computes `sleep_time` as 0 when due, `time - now`
otherwise; on an empty list it leaves the state alone and waits 1
second. -/
theorem schedDequeue_always_removes_head (s : SysState) (now : Int) :
    (s.alarm_list = none → schedDequeue s now = some (s, none, 1, [])) ∧
    (∀ a r, s.alarm_list = some a → cellAt s.heap a = some r →
      ∃ s2 outs, schedDequeue s now =
          some (s2, some a, if r.time ≤ now then 0 else r.time - now, outs) ∧
        s2.alarm_list = r.link) := by
  constructor
  · intro h
    unfold schedDequeue
    rw [h]
  · intro a r ha hr
    simp only [schedDequeue, ha, hr]
    cases hd : s.display_list with
    | nil => simp only [hd]; exact ⟨_, _, rfl, rfl⟩
    | cons d ds => simp only [hd]; exact ⟨_, _, rfl, rfl⟩

/-- C3 witness: the removal conjunct applied to a registry holding one
alarm due at time 10, inspected at time 0. -/
theorem schedDequeue_always_removes_head_inst :
    ∃ s2 outs, schedDequeue exS1 0 =
        some (s2, some 0,
          (if (10 : Int) ≤ 0 then 0 else 10 - 0), outs) ∧
      s2.alarm_list = none :=
  (schedDequeue_always_removes_head exS1 0).2 0
    ⟨none, 10, 10, none, 5, "m", "Start_Alarm"⟩ (by decide) (by decide)

/-- C4 counterexample: with records id 1 due at 100 and id 2 due at 50
both live (chain `[1, 2]` in id order), the scheduler selects the record
at address 0 — id 1, due at 100 — although the record with the smallest
due time (id 2, due at 50 < 100) is also live. -/
theorem scheduler_ignores_due_order :
    ((start_alarm initState 0 1 100 "a").bind (fun r1 =>
      (start_alarm r1.1 0 2 50 "b").bind (fun r2 =>
        (schedDequeue r2.1 0).map (fun q =>
          (chainIds r2.1, q.2.1,
           (heapGet r2.1 0).map (fun r => (r.alarm_id, r.time)),
           (heapGet r2.1 1).map (fun r => (r.alarm_id, r.time))))))
      = some ([1, 2], some 0, some (1, 100), some (2, 50))) ∧
    (50 : Int) < 100 := by decide

/-- C4 (amended): the record the scheduler selects is always the head
of the alarm list — the first record in ascending alarm-id order, since
`main` inserts sorted by id — regardless of the due times of the other
live records. -/
theorem scheduler_selects_list_head (s : SysState) (now : Int) (a : Nat)
    (res : SysState × Option Nat × Int × List String)
    (h1 : s.alarm_list = some a) (h2 : schedDequeue s now = some res) :
    res.2.1 = some a := by
  simp only [schedDequeue, h1] at h2
  cases hc : cellAt s.heap a with
  | none => rw [hc] at h2; exact absurd h2 (by simp)
  | some r =>
    simp only [hc] at h2
    cases hd : s.display_list with
    | nil =>
      simp only [hd, Option.some.injEq] at h2
      subst h2
      rfl
    | cons d ds =>
      simp only [hd, Option.some.injEq] at h2
      subst h2
      rfl

/-- C4 witness: applied to the singleton registry `exS1`. -/
theorem scheduler_selects_list_head_inst : exQ1.2.1 = some 0 :=
  scheduler_selects_list_head exS1 0 0 exQ1 (by decide) (by decide)

/-- C5 (code bug evaluation): in an alarm-thread iteration with a
non-empty alarm list and an existing display thread, the mutex is
acquired at line 182 while already held since line 132 (a nested
acquisition of a non-recursive mutex); and a display-thread iteration
that renders the message sleeps at line 101/107 while holding the mutex
reacquired by `pthread_cond_wait`. -/
theorem lock_discipline_violations :
    nestedLockFrom 0 (alarmIterTrace true true true) = true ∧
    sleepHoldingFrom 0 (displayIterTrace false false 1) = true := by decide

/-- C6 counterexample: `Start_Alarm(7): 1 hi` followed immediately by
`Change_Alarm(7): 5 bye` does NOT leave a record with duration 5 and
message "bye" — the change searches from the global cursor, which is
still null before the alarm thread has ever run, so it reports
`Bad command, Alarm ID (7) not found`, mutates nothing, and the single
live record keeps duration 1 and message "hi" (and the program has no
revision counter at all). -/
theorem start_then_change_keeps_old_values :
    (start_alarm initState 0 7 1 "hi").bind (fun r1 =>
      (change_alarm r1.1 0 7 5 "bye").map (fun r2 =>
        ((heapGet r2.1 0).map (fun r => (r.seconds, r.message)),
         r2.2.2, decide (r2.1 = r1.1))))
      = some (some (1, "hi"), [notFoundMsg 7], true) := by decide

/-- C6 (amended): for every id, duration and message, a `start_alarm`
on the fresh registry followed immediately by a `change_alarm` of the
same id leaves exactly one live record — still carrying the ORIGINAL
duration and message — and the change emits the not-found error,
because the global cursor is still null. -/
theorem start_then_change_fresh_registry
    (now1 now2 id d1 d2 : Int) (m1 m2 : String) :
    start_alarm initState now1 id d1 m1 =
      some (freshAfterStart now1 id d1 m1,
            [statusMsg, insertedMsg id now1 d1 m1], []) ∧
    change_alarm (freshAfterStart now1 id d1 m1) now2 id d2 m2 =
      some (freshAfterStart now1 id d1 m1, [], [notFoundMsg id]) ∧
    chainIds (freshAfterStart now1 id d1 m1) = [id] ∧
    (freshAfterStart now1 id d1 m1).heap =
      [some ⟨none, now1 + d1, d1, none, id, m1, "Start_Alarm"⟩] :=
  ⟨rfl, rfl, rfl, rfl⟩

/-- C7 counterexample: a successful `change_alarm` on live id 2 (its
message goes from "b" to "new") leaves `alarm_id` unchanged — that part
holds — but increments nothing: the record's only change-marker field
`changed` stays at its uninitialized value, before and after.  No
revision counter exists, so "increments the revision by exactly one"
is false. -/
theorem change_bumps_no_counter :
    (start_alarm initState 0 1 10 "a").bind (fun r1 =>
      (start_alarm r1.1 0 2 20 "b").bind (fun r2 =>
        (schedDequeue r2.1 0).bind (fun q =>
          (change_alarm q.1 0 2 5 "new").map (fun c =>
            ((heapGet q.1 1).map (fun r => (r.alarm_id, r.changed, r.message)),
             (heapGet c.1 1).map (fun r => (r.alarm_id, r.changed, r.message)))))))
      = some (some (2, none, "b"), some (2, none, "new")) := by decide

/-- C7 (amended): `change_alarm` never changes any record's `alarm_id`,
`changed` flag or `link` — it rewrites only `seconds`, `time`,
`req_type` and `message` of the record it finds — and it leaves the
alarm list head and the display list untouched; the `changed` flag (the
code's only change marker) is instead written by the alarm thread at
line 181. -/
theorem change_alarm_frame_props (s : SysState) (now tid tsec : Int)
    (msg : String) (r : SysState × List String × List String)
    (h : change_alarm s now tid tsec msg = some r) :
    r.1.alarm_list = s.alarm_list ∧ r.1.display_list = s.display_list ∧
    ∀ a, (heapGet r.1 a).map frameData = (heapGet s a).map frameData := by
  simp only [change_alarm] at h
  split at h
  · exact absurd h (by simp)
  · rename_i h2 gn ex outs hw
    simp only [Option.some.injEq] at h
    subst h
    exact ⟨rfl, rfl, fun a =>
      (changeWalk_preserves _ _ _ _ _ _ _ _ _ _ _ hw).2 a⟩

/-- C7 witness: the frame properties at the concrete successful change
of `sC7` into `rC7`. -/
theorem change_alarm_frame_props_inst :
    rC7.1.alarm_list = sC7.alarm_list ∧ rC7.1.display_list = sC7.display_list ∧
    ∀ a, (heapGet rC7.1 a).map frameData = (heapGet sC7 a).map frameData :=
  change_alarm_frame_props sC7 0 2 5 "new" rC7 (by decide)

/-- C8 counterexample: after `Start_Alarm(5): 10 m`, id 5 is live (the
chain is `[5]`), yet `Change_Alarm(5): 3 x` emits
`Bad command, Alarm ID (5) not found` and mutates nothing — the
"error iff not live" equivalence fails, because the search walks the
global cursor (still null), not the alarm list. -/
theorem live_id_reported_not_found :
    (start_alarm initState 0 5 10 "m").bind (fun r1 =>
      (change_alarm r1.1 0 5 3 "x").map (fun r2 =>
        (chainIds r1.1, r2.2.2, decide (r2.1 = r1.1))))
      = some ([5], [notFoundMsg 5], true) := by decide

/-- C8 (amended): `change_alarm` searches from the global cursor, not
from the alarm list; whenever the cursor is null — as it is from program
start until the alarm thread first dequeues — every change request is
answered with `Bad command, Alarm ID (id) not found` on the error
stream and no state is mutated, whether or not a live record with that
id exists. -/
theorem change_with_null_cursor_not_found (s : SysState)
    (now tid tsec : Int) (msg : String) (h : s.globalNext = none) :
    change_alarm s now tid tsec msg = some (s, [], [notFoundMsg tid]) := by
  obtain ⟨he, al, di, gn⟩ := s
  cases gn with
  | some g => exact absurd h (by simp)
  | none => rfl

/-- C8 witness: a change against the one-alarm registry `exS1` (cursor
null, id 5 live) reports id 99 — and would equally report id 5 — as not
found. -/
theorem change_with_null_cursor_not_found_inst :
    change_alarm exS1 0 99 3 "x" = some (exS1, [], [notFoundMsg 99]) :=
  change_with_null_cursor_not_found exS1 0 99 3 "x" (by decide)

/-- C9 counterexample: two alarms both become the subject of periodic
printing (the scheduler dequeues address 0, then address 1), yet the
display list still holds exactly one worker — the single shared display
thread created on the first dequeue serves both, instead of one
dedicated worker per live alarm. -/
theorem single_shared_display_thread :
    (start_alarm initState 0 1 100 "a").bind (fun r1 =>
      (start_alarm r1.1 0 2 50 "b").bind (fun r2 =>
        (schedDequeue r2.1 0).bind (fun q1 =>
          (schedDequeue q1.1 0).map (fun q2 =>
            (q1.2.1, q2.2.1, q2.1.display_list.length)))))
      = some (some 0, some 1, 1) := by decide

/-- C9 (amended): at most one display thread ever exists: the
scheduler creates the single worker (thread id 1) only when the display
list is empty, every later pass leaves the display list untouched (it
signals the one shared condition variable instead), and the gateway
operations never create workers. -/
theorem display_thread_created_at_most_once :
    (∀ s now res, schedDequeue s now = some res →
       res.1.display_list = s.display_list ∨
         (s.display_list = [] ∧ res.1.display_list = [⟨1, now⟩])) ∧
    (∀ s now tid tsec msg r, start_alarm s now tid tsec msg = some r →
       r.1.display_list = s.display_list) ∧
    (∀ s now tid tsec msg r, change_alarm s now tid tsec msg = some r →
       r.1.display_list = s.display_list) := by
  refine ⟨?_, ?_, ?_⟩
  · intro s now res hres
    cases ha : s.alarm_list with
    | none =>
      simp only [schedDequeue, ha, Option.some.injEq] at hres
      subst hres
      exact Or.inl rfl
    | some a =>
      simp only [schedDequeue, ha] at hres
      cases hc : cellAt s.heap a with
      | none => rw [hc] at hres; exact absurd hres (by simp)
      | some r =>
        simp only [hc] at hres
        cases hd : s.display_list with
        | nil =>
          simp only [hd, Option.some.injEq] at hres
          subst hres
          exact Or.inr ⟨rfl, rfl⟩
        | cons d ds =>
          simp only [hd, Option.some.injEq] at hres
          subst hres
          exact Or.inl rfl
  · intro s now tid tsec msg r hr
    simp only [start_alarm] at hr
    split at hr
    · exact absurd hr (by simp)
    · rename_i h2 head2 hiw
      simp only [Option.some.injEq] at hr
      subst hr
      rfl
  · intro s now tid tsec msg r hr
    simp only [change_alarm] at hr
    split at hr
    · exact absurd hr (by simp)
    · rename_i h2 gn ex outs hw
      simp only [Option.some.injEq] at hr
      subst hr
      rfl

/-- C9 witness: the scheduler conjunct applied to the first dequeue
from `exS1`, which creates the single worker. -/
theorem display_thread_created_at_most_once_inst :
    exQ1.1.display_list = exS1.display_list ∨
      (exS1.display_list = [] ∧ exQ1.1.display_list = [⟨1, 0⟩]) :=
  display_thread_created_at_most_once.1 exS1 0 exQ1 (by decide)

/-- Helper for C10: the main loop's only exit is `exit (0)` at end of
input, so any status it returns is 0. -/
theorem mainLoop_exit_status :
    ∀ (lines : List String) (s : SysState) (now : Int) (s2 : SysState) (c : Nat),
      mainLoop s now lines = some (s2, c) → c = 0 := by
  intro lines
  induction lines with
  | nil =>
    intro s now s2 c h
    simp only [mainLoop, Option.some.injEq, Prod.mk.injEq] at h
    exact h.2.symm
  | cons l ls ih =>
    intro s now s2 c h
    cases hp : processLine s now l with
    | none => simp [mainLoop, hp] at h
    | some t =>
      obtain ⟨s3, o, e⟩ := t
      simp only [mainLoop, hp] at h
      exact ih s3 now s2 c h

/-- C10 (confirmed): an input line of length at most 1 — empty, or a
lone newline — is skipped by the `strlen (line) <= 1` test at line 247:
no output on either stream and no state change; and on end of file the
process exits with status 0 (line 246). -/
theorem blank_line_skip_and_eof_status :
    (∀ (s : SysState) (now : Int) (line : String), line.length ≤ 1 →
       processLine s now line = some (s, [], [])) ∧
    (∀ (s : SysState) (now : Int) (lines : List String) (s2 : SysState) (c : Nat),
       mainLoop s now lines = some (s2, c) → c = 0) := by
  constructor
  · intro s now line h
    unfold processLine
    rw [if_pos h]
  · intro s now lines s2 c h
    exact mainLoop_exit_status lines s now s2 c h

/-- C10 witness: a lone newline is skipped without output or mutation,
and a run over that one-line input exits with status 0. -/
theorem blank_line_skip_and_eof_status_inst :
    processLine initState 0 "\n" = some (initState, [], []) ∧ (0 : Nat) = 0 :=
  ⟨blank_line_skip_and_eof_status.1 initState 0 "\n" (by decide),
   blank_line_skip_and_eof_status.2 initState 0 ["\n"] initState 0 (by decide)⟩
